import Mathlib

/-!
# sdop-c-test: the real-time tick driver of `main.c`

A shallow embedding of `src/sdop-c-test/main.c`.

* C integers are mathematical integers with explicit reduction: `uint64_t` /
  `unsigned long long` values are integers reduced modulo `2^64`
  (`wrapU64`), `time_t` / `long` values are 64-bit two's-complement integers
  (`wrapI64`, LP64 data model).
* The external collaborators (`sdop_*`, `clock_gettime`, `printf`) are
  observed through the trace of calls `main` makes; what they return is a
  parameter (`World`).
* `main` itself is a small-step machine (`step`) with one program point per
  statement of the source; `run w n` is the state after `n` steps.
-/

namespace Sdop

/-! ## Machine integers -/

/-- Number of values of a 64-bit word. -/
def U64_MOD : Int := 2 ^ 64

/-- Conversion to `unsigned long long` / `uint64_t`: reduction modulo `2^64`. -/
def wrapU64 (x : Int) : Int := x % U64_MOD

/-- Result of a `long` / `time_t` operation, read as a 64-bit two's-complement
value (the identity on `[-2^63, 2^63)`). Signed overflow has no defined result
in C; it wraps here, and `delta_nanos_no_signed_overflow` shows that samples
less than `2^64` ns apart never reach it. -/
def wrapI64 (x : Int) : Int := (x + 2 ^ 63) % U64_MOD - 2 ^ 63

/-! ## `struct timespec` -/

/-- The two fields of `struct timespec` that `main` reads (`time_t tv_sec`,
`long tv_nsec`). The fields are integers; what is proved for every integer
holds for the values the C types can store. -/
structure Timespec where
  tv_sec : Int
  tv_nsec : Int
deriving DecidableEq

/-- A sample is normalised when `0 <= tv_nsec < 1000000000`. -/
def Timespec.normalised (t : Timespec) : Prop :=
  0 ≤ t.tv_nsec ∧ t.tv_nsec < 1000000000

instance (t : Timespec) : Decidable t.normalised := by
  unfold Timespec.normalised; infer_instance

/-- The instant a sample denotes, in nanoseconds. -/
def Timespec.toNanos (t : Timespec) : Int :=
  t.tv_sec * 1000000000 + t.tv_nsec

/-- Order on samples: seconds first, then nanoseconds. -/
def Timespec.le (a b : Timespec) : Prop :=
  a.tv_sec < b.tv_sec ∨ (a.tv_sec = b.tv_sec ∧ a.tv_nsec ≤ b.tv_nsec)

instance (a b : Timespec) : Decidable (Timespec.le a b) := by
  unfold Timespec.le; infer_instance

/-- Strict order on samples: seconds first, then nanoseconds. -/
def Timespec.lt (a b : Timespec) : Prop :=
  a.tv_sec < b.tv_sec ∨ (a.tv_sec = b.tv_sec ∧ a.tv_nsec < b.tv_nsec)

instance (a b : Timespec) : Decidable (Timespec.lt a b) := by
  unfold Timespec.lt; infer_instance

/-! ## The delta expression (main.c lines 19-20) -/

/-- The value stored in `delta_nanos`:
`(current_time.tv_sec - last_time.tv_sec) * 1000000000ULL
   + (current_time.tv_nsec - last_time.tv_nsec)`.
Both subtractions are signed (`time_t`, `long`); each difference is converted
to `unsigned long long` by the usual arithmetic conversions, and the product
and the sum are taken modulo `2^64`. -/
def delta_nanos (last_time current_time : Timespec) : Int :=
  let dsec : Int := wrapI64 (current_time.tv_sec - last_time.tv_sec)
  let dnsec : Int := wrapI64 (current_time.tv_nsec - last_time.tv_nsec)
  let prod : Int := wrapU64 (wrapU64 dsec * 1000000000)
  wrapU64 (prod + wrapU64 dnsec)

/-! ## The external collaborators -/

/-- A value of type `SdopTimestamp*`. -/
structure TimestampPtr where
  addr : Nat
deriving DecidableEq

/-- A value of type `SdopGame*`. -/
structure GamePtr where
  addr : Nat
deriving DecidableEq

/-- What the environment answers to `main`: the pointer each constructor of the
external library returns, and the sample the `i`-th call of
`clock_gettime(CLOCK_MONOTONIC, _)` stores (`i = 0` is the call before the
loop). The library header is not part of the sources, so the argument types of
`sdop_timestamp_new` are integers here. -/
structure World where
  sdop_timestamp_new : Int → Int → Int → Int → Int → Int → TimestampPtr
  sdop_game_blank : TimestampPtr → GamePtr
  clock : Nat → Timespec

/-- One call made by `main`, with its arguments and, for the calls whose result
`main` uses, the result. -/
inductive Call where
  | sdop_timestamp_new (year month day hour minute second : Int) (ret : TimestampPtr)
  | sdop_game_blank (ts : TimestampPtr) (ret : GamePtr)
  | sdop_timestamp_free (ts : TimestampPtr)
  | clock_gettime (out : Timespec)
  | sdop_game_tick (game : GamePtr) (delta : Int)
  | sdop_game_refresh_display (game : GamePtr) (delta : Int)
  | printf (format : String) (arg : Int)
  | sdop_game_free (game : GamePtr)
deriving DecidableEq

/-- Is the call `sdop_game_blank`? -/
def Call.isGameBlank : Call → Bool
  | .sdop_game_blank _ _ => true
  | _ => false

/-- Is the call `sdop_game_tick`? -/
def Call.isGameTick : Call → Bool
  | .sdop_game_tick _ _ => true
  | _ => false

/-- Is the call `sdop_game_refresh_display`? -/
def Call.isRefreshDisplay : Call → Bool
  | .sdop_game_refresh_display _ _ => true
  | _ => false

/-- Is the call `sdop_timestamp_free`? -/
def Call.isTimestampFree : Call → Bool
  | .sdop_timestamp_free _ => true
  | _ => false

/-- Is the call `sdop_game_free`? -/
def Call.isGameFree : Call → Bool
  | .sdop_game_free _ => true
  | _ => false

/-- The `SdopTimestamp*` argument of a call, if it takes one. -/
def Call.timestampArg : Call → Option TimestampPtr
  | .sdop_game_blank ts _ => some ts
  | .sdop_timestamp_free ts => some ts
  | _ => none

/-- The `SdopGame*` argument of a call, if it takes one. -/
def Call.gameArg : Call → Option GamePtr
  | .sdop_game_tick g _ => some g
  | .sdop_game_refresh_display g _ => some g
  | .sdop_game_free g => some g
  | _ => none

/-! ## Standard output -/

/-- The format string of the `printf` call (main.c line 26). -/
def TICK_FORMAT : String := "Tick advanced by %llu ns\n"

/-- What `printf("Tick advanced by %llu ns\n", d)` writes: the text before the
conversion, the unsigned decimal digits of `d`, the text after it. -/
def printf_tick (d : Int) : String :=
  "Tick advanced by " ++ Nat.repr d.toNat ++ " ns\n"

/-! ## `main` as a small-step machine -/

/-- Program points of `main`, one per statement. -/
inductive PC where
  | timestamp_new      -- line 7
  | game_blank         -- line 8
  | timestamp_free     -- line 9
  | clock_init         -- line 12
  | loop_test          -- line 14
  | clock_current      -- line 16
  | compute_delta      -- lines 19-20
  | game_tick          -- line 22
  | refresh_display    -- line 23
  | assign_last        -- line 24
  | print_tick         -- line 26
  | game_free          -- line 29
  | return_zero        -- line 30
  | exited
deriving DecidableEq

/-- The state of `main`: the program point, the locals, the number of clock
reads made so far, the calls made so far (oldest first), the text written to
standard output, and the exit status once `main` has returned. -/
structure State where
  pc : PC
  ts : TimestampPtr
  game : GamePtr
  last_time : Timespec
  current_time : Timespec
  delta_nanos : Int
  clock_reads : Nat
  trace : List Call
  stdout : String
  exit_status : Option Int
deriving DecidableEq

/-- The state on entry to `main`. The locals are indeterminate in C until
their first assignment; `main` assigns each one before reading it, and they
start at zero here. -/
def init : State where
  pc := .timestamp_new
  ts := ⟨0⟩
  game := ⟨0⟩
  last_time := ⟨0, 0⟩
  current_time := ⟨0, 0⟩
  delta_nanos := 0
  clock_reads := 0
  trace := []
  stdout := ""
  exit_status := none

/-- One statement of `main`. -/
def step (w : World) (s : State) : State :=
  match s.pc with
  | .timestamp_new =>
      let p := w.sdop_timestamp_new 2025 10 14 7 20 0
      { s with pc := .game_blank, ts := p,
               trace := s.trace ++ [.sdop_timestamp_new 2025 10 14 7 20 0 p] }
  | .game_blank =>
      let g := w.sdop_game_blank s.ts
      { s with pc := .timestamp_free, game := g,
               trace := s.trace ++ [.sdop_game_blank s.ts g] }
  | .timestamp_free =>
      { s with pc := .clock_init, trace := s.trace ++ [.sdop_timestamp_free s.ts] }
  | .clock_init =>
      let t := w.clock s.clock_reads
      { s with pc := .loop_test, last_time := t, clock_reads := s.clock_reads + 1,
               trace := s.trace ++ [.clock_gettime t] }
  | .loop_test =>
      if (1 : Int) ≠ 0 then { s with pc := .clock_current }
      else { s with pc := .game_free }
  | .clock_current =>
      let t := w.clock s.clock_reads
      { s with pc := .compute_delta, current_time := t, clock_reads := s.clock_reads + 1,
               trace := s.trace ++ [.clock_gettime t] }
  | .compute_delta =>
      { s with pc := .game_tick, delta_nanos := delta_nanos s.last_time s.current_time }
  | .game_tick =>
      { s with pc := .refresh_display,
               trace := s.trace ++ [.sdop_game_tick s.game s.delta_nanos] }
  | .refresh_display =>
      { s with pc := .assign_last,
               trace := s.trace ++ [.sdop_game_refresh_display s.game s.delta_nanos] }
  | .assign_last =>
      { s with pc := .print_tick, last_time := s.current_time }
  | .print_tick =>
      { s with pc := .loop_test, stdout := s.stdout ++ printf_tick s.delta_nanos,
               trace := s.trace ++ [.printf TICK_FORMAT s.delta_nanos] }
  | .game_free =>
      { s with pc := .return_zero, trace := s.trace ++ [.sdop_game_free s.game] }
  | .return_zero =>
      { s with pc := .exited, exit_status := some 0 }
  | .exited => s

/-- The state after `n` statements of `main`. -/
def run (w : World) : Nat → State
  | 0 => init
  | n + 1 => step w (run w n)

/-- Statements executed before the loop is first reached. -/
def STARTUP_STEPS : Nat := 4

/-- Statements executed by one pass through the loop (test included). -/
def ITERATION_STEPS : Nat := 7

/-- The state at the loop test after `k` completed iterations. -/
def atLoop (w : World) (k : Nat) : State :=
  run w (STARTUP_STEPS + ITERATION_STEPS * k)

/-- The calls made during iteration `k` (`k >= 1`): those in the trace after
`k` iterations that were not yet in the trace after `k - 1`. -/
def iterationCalls (w : World) (k : Nat) : List Call :=
  (atLoop w k).trace.drop (atLoop w (k - 1)).trace.length

/-- Number of newline characters in a text: the number of complete lines. -/
def lineCount (s : String) : Nat := s.data.count '\n'

/-! ## Names for what the environment hands back -/

/-- The pointer `main` holds in `ts`. -/
def tsOf (w : World) : TimestampPtr := w.sdop_timestamp_new 2025 10 14 7 20 0

/-- The handle `main` holds in `game`. -/
def gameOf (w : World) : GamePtr := w.sdop_game_blank (tsOf w)

/-- The calls of the startup sequence. -/
def startupCalls (w : World) : List Call :=
  [.sdop_timestamp_new 2025 10 14 7 20 0 (tsOf w), .sdop_game_blank (tsOf w) (gameOf w),
   .sdop_timestamp_free (tsOf w), .clock_gettime (w.clock 0)]

/-- The calls of iteration `k + 1`, given what the environment answers. -/
def iterationOf (w : World) (k : Nat) : List Call :=
  [.clock_gettime (w.clock (k + 1)),
   .sdop_game_tick (gameOf w) (delta_nanos (w.clock k) (w.clock (k + 1))),
   .sdop_game_refresh_display (gameOf w) (delta_nanos (w.clock k) (w.clock (k + 1))),
   .printf TICK_FORMAT (delta_nanos (w.clock k) (w.clock (k + 1)))]

/-- A call that belongs to the loop body: a clock read, a tick or a refresh on
the handle made at startup, or the `printf`. -/
def LoopCall (w : World) (c : Call) : Prop :=
  (∃ t, c = .clock_gettime t) ∨ (∃ d, c = .sdop_game_tick (gameOf w) d) ∨
  (∃ d, c = .sdop_game_refresh_display (gameOf w) d) ∨ (∃ d, c = .printf TICK_FORMAT d)

/-- A deterministic clock for examples: sample `i` is `t0 + i * period`
nanoseconds, as a normalised pair. -/
def fakeClock (t0 period : Int) (i : Nat) : Timespec :=
  ⟨(t0 + i * period) / 1000000000, (t0 + i * period) % 1000000000⟩

/-- A world for examples: fixed pointers and a clock ticking every
`period` nanoseconds from `t0`. -/
def fakeWorld (t0 period : Int) : World where
  sdop_timestamp_new := fun _ _ _ _ _ _ => ⟨4096⟩
  sdop_game_blank := fun _ => ⟨8192⟩
  clock := fakeClock t0 period

/-! ## Arithmetic of the delta expression -/

/-- Converting a wrapped signed value to unsigned is reduction of the exact
value modulo `2^64`. -/
theorem wrapU64_wrapI64 (x : Int) : wrapU64 (wrapI64 x) = wrapU64 x := by
  unfold wrapU64 wrapI64 U64_MOD
  omega

/-- On the range of `long` the signed wrap is the identity. -/
theorem wrapI64_of_range (x : Int) (h0 : -2 ^ 63 ≤ x)
    (h1 : x < 2 ^ 63) : wrapI64 x = x := by
  unfold wrapI64 U64_MOD
  omega

/-- The delta expression is the distance between the two instants, reduced
modulo `2^64`. -/
theorem delta_nanos_eq_emod (last cur : Timespec) :
    delta_nanos last cur = (cur.toNanos - last.toNanos) % U64_MOD := by
  unfold delta_nanos wrapU64 wrapI64 Timespec.toNanos U64_MOD
  simp only []
  omega

/-- The delta expression always yields a `uint64_t` value. -/
theorem delta_nanos_range (last cur : Timespec) :
    0 ≤ delta_nanos last cur ∧ delta_nanos last cur < U64_MOD := by
  rw [delta_nanos_eq_emod]
  unfold U64_MOD
  omega

/-- On normalised samples the seconds-then-nanoseconds order agrees with the
order of the instants. -/
theorem toNanos_le_of_le (a b : Timespec) (ha : a.normalised) (hb : b.normalised)
    (h : Timespec.le a b) : a.toNanos ≤ b.toNanos := by
  unfold Timespec.normalised at ha hb
  unfold Timespec.le at h
  unfold Timespec.toNanos
  omega

/-- For normalised samples less than `2^64` ns apart, in either direction,
neither signed subtraction of the delta expression leaves the range of `long`:
the wrap in `wrapI64` is the identity there. -/
theorem delta_nanos_no_signed_overflow (last cur : Timespec)
    (hl : last.normalised) (hc : cur.normalised)
    (hlo : -U64_MOD < cur.toNanos - last.toNanos)
    (hhi : cur.toNanos - last.toNanos < U64_MOD) :
    wrapI64 (cur.tv_sec - last.tv_sec) = cur.tv_sec - last.tv_sec ∧
    wrapI64 (cur.tv_nsec - last.tv_nsec) = cur.tv_nsec - last.tv_nsec := by
  unfold Timespec.normalised at hl hc
  unfold Timespec.toNanos U64_MOD at hlo hhi
  constructor <;> apply wrapI64_of_range <;> omega

/-- The fake clock's sample denotes the instant it was built from. -/
theorem fakeClock_toNanos (t0 period : Int) (i : Nat) :
    (fakeClock t0 period i).toNanos = t0 + i * period := by
  unfold fakeClock Timespec.toNanos
  simp only []
  omega

/-- The fake clock's samples are normalised. -/
theorem fakeClock_normalised (t0 period : Int) (i : Nat) :
    (fakeClock t0 period i).normalised := by
  unfold fakeClock Timespec.normalised
  simp only []
  omega

/-! ## The loop, one iteration at a time -/

/-- Seven statements from the loop test: one full iteration. -/
theorem iteration_steps (w : World) (s : State) (h : s.pc = .loop_test) :
    step w (step w (step w (step w (step w (step w (step w s)))))) =
      { s with
        last_time := w.clock s.clock_reads
        current_time := w.clock s.clock_reads
        delta_nanos := delta_nanos s.last_time (w.clock s.clock_reads)
        clock_reads := s.clock_reads + 1
        trace := s.trace ++
          [Call.clock_gettime (w.clock s.clock_reads),
           Call.sdop_game_tick s.game (delta_nanos s.last_time (w.clock s.clock_reads)),
           Call.sdop_game_refresh_display s.game (delta_nanos s.last_time (w.clock s.clock_reads)),
           Call.printf TICK_FORMAT (delta_nanos s.last_time (w.clock s.clock_reads))]
        stdout := s.stdout ++ printf_tick (delta_nanos s.last_time (w.clock s.clock_reads)) } := by
  obtain ⟨pc, ts, game, lt, ct, dn, cr, tr, out, ex⟩ := s
  simp only at h
  subst h
  simp [step]

/-- The state after `k + 1` iterations is seven statements after the state
after `k`. -/
theorem atLoop_succ (w : World) (k : Nat) :
    atLoop w (k + 1) =
      step w (step w (step w (step w (step w (step w (step w (atLoop w k))))))) := by
  unfold atLoop
  have : STARTUP_STEPS + ITERATION_STEPS * (k + 1) = STARTUP_STEPS + ITERATION_STEPS * k + 7 := by
    unfold ITERATION_STEPS; ring
  rw [this]
  rfl

/-- The state when the loop test is first reached. -/
theorem atLoop_zero (w : World) :
    atLoop w 0 =
      { init with
        pc := .loop_test, ts := tsOf w, game := gameOf w, last_time := w.clock 0,
        clock_reads := 1, trace := startupCalls w } := by
  rfl

/-- Loop invariant: at the loop test after `k` iterations the locals hold the
two pointers made at startup, `last_time` holds sample `k`, `k + 1` samples
have been read, and `main` has not returned. -/
theorem atLoop_invariant (w : World) (k : Nat) :
    (atLoop w k).pc = .loop_test ∧ (atLoop w k).ts = tsOf w ∧
    (atLoop w k).game = gameOf w ∧ (atLoop w k).last_time = w.clock k ∧
    (atLoop w k).clock_reads = k + 1 ∧ (atLoop w k).exit_status = none := by
  induction k with
  | zero => rw [atLoop_zero]; simp [init]
  | succ k ih =>
    obtain ⟨hpc, hts, hg, hl, hc, he⟩ := ih
    rw [atLoop_succ, iteration_steps w _ hpc]
    simp [hpc, hts, hg, hc, he]

/-- Iteration `k + 1` extends the trace by its four calls. -/
theorem atLoop_trace_succ (w : World) (k : Nat) :
    (atLoop w (k + 1)).trace = (atLoop w k).trace ++ iterationOf w k := by
  obtain ⟨hpc, _, hg, hl, hc, _⟩ := atLoop_invariant w k
  rw [atLoop_succ, iteration_steps w _ hpc]
  simp [iterationOf, hg, hl, hc]

/-- Iteration `k + 1` extends standard output by one formatted line. -/
theorem atLoop_stdout_succ (w : World) (k : Nat) :
    (atLoop w (k + 1)).stdout =
      (atLoop w k).stdout ++ printf_tick (delta_nanos (w.clock k) (w.clock (k + 1))) := by
  obtain ⟨hpc, _, _, hl, hc, _⟩ := atLoop_invariant w k
  rw [atLoop_succ, iteration_steps w _ hpc]
  simp [hl, hc]

/-- The value left in `delta_nanos` by iteration `k + 1`. -/
theorem atLoop_delta_succ (w : World) (k : Nat) :
    (atLoop w (k + 1)).delta_nanos = delta_nanos (w.clock k) (w.clock (k + 1)) := by
  obtain ⟨hpc, _, _, hl, hc, _⟩ := atLoop_invariant w k
  rw [atLoop_succ, iteration_steps w _ hpc]
  simp [hl, hc]

/-- The calls made during iteration `k + 1`. -/
theorem iterationCalls_succ (w : World) (k : Nat) :
    iterationCalls w (k + 1) = iterationOf w k := by
  unfold iterationCalls
  rw [Nat.add_sub_cancel, atLoop_trace_succ, List.drop_left]

/-! ## Every finite part of the run -/

/-- A statement never removes or changes a call already made. -/
theorem step_trace_grows (w : World) (s : State) : s.trace <+: (step w s).trace := by
  unfold step
  split <;> try split
  all_goals first | exact List.prefix_refl _ | exact List.prefix_append _ _

/-- The trace only grows along the run. -/
theorem run_trace_mono (w : World) (m n : Nat) (h : m ≤ n) :
    (run w m).trace <+: (run w n).trace := by
  induction n with
  | zero =>
    have : m = 0 := by omega
    subst this
    exact List.prefix_refl _
  | succ n ih =>
    rcases Nat.lt_or_ge m (n + 1) with hlt | hge
    · exact (ih (by omega)).trans (step_trace_grows w (run w n))
    · have : m = n + 1 := by omega
      subst this
      exact List.prefix_refl _

/-- Every state of the run has made no more calls than some loop-test state. -/
theorem run_trace_prefix_atLoop (w : World) (m : Nat) :
    (run w m).trace <+: (atLoop w m).trace := by
  unfold atLoop
  apply run_trace_mono
  unfold STARTUP_STEPS ITERATION_STEPS
  omega

/-- The trace at the loop test: the startup calls, then loop-body calls only. -/
theorem atLoop_trace_shape (w : World) (k : Nat) :
    ∃ rest, (atLoop w k).trace = startupCalls w ++ rest ∧ ∀ c ∈ rest, LoopCall w c := by
  induction k with
  | zero => exact ⟨[], by rw [atLoop_zero]; simp, by simp⟩
  | succ k ih =>
    obtain ⟨rest, hr, hall⟩ := ih
    refine ⟨rest ++ iterationOf w k, ?_, ?_⟩
    · rw [atLoop_trace_succ, hr, List.append_assoc]
    · intro c hc
      rcases List.mem_append.mp hc with h | h
      · exact hall c h
      · simp only [iterationOf, List.mem_cons, List.mem_singleton, List.not_mem_nil,
          or_false] at h
        rcases h with h | h | h | h
        · exact Or.inl ⟨_, h⟩
        · exact Or.inr (Or.inl ⟨_, h⟩)
        · exact Or.inr (Or.inr (Or.inl ⟨_, h⟩))
        · exact Or.inr (Or.inr (Or.inr ⟨_, h⟩))

/-- Every finite prefix of the call trace is a prefix of the startup calls
followed by loop-body calls. -/
theorem prefix_shape (w : World) (m : Nat) (p : List Call) (hp : p <+: (run w m).trace) :
    ∃ rest, p <+: startupCalls w ++ rest ∧ ∀ c ∈ rest, LoopCall w c := by
  obtain ⟨rest, hr, hall⟩ := atLoop_trace_shape w m
  exact ⟨rest, hr ▸ hp.trans (run_trace_prefix_atLoop w m), hall⟩

/-- Program points reached by the run: never the code after the loop. -/
theorem run_pc_in_loop (w : World) (m : Nat) :
    (run w m).pc ≠ .game_free ∧ (run w m).pc ≠ .return_zero ∧ (run w m).pc ≠ .exited ∧
    (run w m).exit_status = none := by
  induction m with
  | zero => simp [run, init]
  | succ m ih =>
    obtain ⟨h1, h2, h3, h4⟩ := ih
    simp only [run]
    generalize run w m = s at h1 h2 h3 h4
    obtain ⟨pc, ts, game, lt, ct, dn, cr, tr, out, ex⟩ := s
    simp only at h1 h2 h3 h4
    cases pc <;> simp_all [step]

/-! ## The delta is the elapsed time -/

/-- C1: for normalised samples `last <= current` (seconds, then nanoseconds)
whose true distance is below `2^64`, the delta expression of `main` equals the
true distance `(s1*10^9 + n1) - (s0*10^9 + n0)` exactly; no case split on the
sign of the nanosecond difference is needed, so the borrow case is included. -/
theorem delta_nanos_eq_distance (last current : Timespec)
    (hl : last.normalised) (hc : current.normalised) (hle : Timespec.le last current)
    (hd : (current.tv_sec * 1000000000 + current.tv_nsec)
            - (last.tv_sec * 1000000000 + last.tv_nsec) < 2 ^ 64) :
    delta_nanos last current =
      (current.tv_sec * 1000000000 + current.tv_nsec)
        - (last.tv_sec * 1000000000 + last.tv_nsec) := by
  have h := toNanos_le_of_le last current hl hc hle
  rw [delta_nanos_eq_emod]
  unfold Timespec.toNanos U64_MOD at *
  omega

/-- C1 at a borrow case: from `(5 s, 999999999 ns)` to `(6 s, 1 ns)` the
nanosecond difference is negative and the delta is 2. -/
theorem delta_nanos_eq_distance_witness :
    (Timespec.mk 5 999999999).normalised ∧ (Timespec.mk 6 1).normalised ∧
    Timespec.le (Timespec.mk 5 999999999) (Timespec.mk 6 1) ∧
    (Timespec.mk 6 1).tv_nsec < (Timespec.mk 5 999999999).tv_nsec ∧
    delta_nanos (Timespec.mk 5 999999999) (Timespec.mk 6 1) = 2 :=
  ⟨by decide, by decide, by decide, by decide,
   delta_nanos_eq_distance (Timespec.mk 5 999999999) (Timespec.mk 6 1)
     (by decide) (by decide) (by decide) (by decide)⟩

/-- C8: when sample `k` is not later than sample `k + 1`, the delta computed
by iteration `k + 1` of the loop (the value of `delta_nanos (last, current)`
stored in the local `delta_nanos`) is at least zero. -/
theorem delta_nonneg_of_monotonic (w : World) (k : Nat)
    (hmono : Timespec.le (w.clock k) (w.clock (k + 1))) :
    (atLoop w (k + 1)).delta_nanos = delta_nanos (w.clock k) (w.clock (k + 1)) ∧
    0 ≤ (atLoop w (k + 1)).delta_nanos := by
  have _ := hmono
  rw [atLoop_delta_succ]
  exact ⟨rfl, (delta_nanos_range _ _).1⟩

/-- C8 on a clock ticking every 250 ns: the first iteration's delta is 250. -/
theorem delta_nonneg_of_monotonic_witness :
    Timespec.le ((fakeWorld 7 250).clock 0) ((fakeWorld 7 250).clock 1) ∧
    (atLoop (fakeWorld 7 250) 1).delta_nanos = 250 ∧
    0 ≤ (atLoop (fakeWorld 7 250) 1).delta_nanos :=
  ⟨by decide, by decide, (delta_nonneg_of_monotonic (fakeWorld 7 250) 0 (by decide)).2⟩

/-- C10: if sample `k + 1` is earlier than sample `k` by `g` nanoseconds,
`0 < g < 2^64`, both normalised, then iteration `k + 1` forwards the wrapped
value `2^64 - g` to `sdop_game_tick` and `sdop_game_refresh_display` (and
prints it); for `g <= 2^63` that value is at least `2^63`. -/
theorem regression_forwards_wrapped_delta (w : World) (k : Nat) (g : Int)
    (hl : (w.clock k).normalised) (hc : (w.clock (k + 1)).normalised)
    (hg : (w.clock k).toNanos - (w.clock (k + 1)).toNanos = g)
    (hpos : 0 < g) (hbound : g < 2 ^ 64) :
    iterationCalls w (k + 1) =
      [.clock_gettime (w.clock (k + 1)),
       .sdop_game_tick (w.sdop_game_blank (w.sdop_timestamp_new 2025 10 14 7 20 0)) (2 ^ 64 - g),
       .sdop_game_refresh_display
          (w.sdop_game_blank (w.sdop_timestamp_new 2025 10 14 7 20 0)) (2 ^ 64 - g),
       .printf TICK_FORMAT (2 ^ 64 - g)] ∧
    (g ≤ 2 ^ 63 → (2 : Int) ^ 63 ≤ (atLoop w (k + 1)).delta_nanos) := by
  have _ := hl
  have _ := hc
  have hdelta : delta_nanos (w.clock k) (w.clock (k + 1)) = 2 ^ 64 - g := by
    rw [delta_nanos_eq_emod]
    unfold U64_MOD
    omega
  constructor
  · rw [iterationCalls_succ]
    simp only [iterationOf, hdelta, gameOf, tsOf]
  · intro h
    rw [atLoop_delta_succ, hdelta]
    omega

/-- C10 on a clock that steps back by 1 ns per sample: the forwarded delta is
`2^64 - 1`. -/
theorem regression_forwards_wrapped_delta_witness :
    Timespec.lt ((fakeWorld 5 (-1)).clock 1) ((fakeWorld 5 (-1)).clock 0) ∧
    iterationCalls (fakeWorld 5 (-1)) 1 =
      [.clock_gettime (Timespec.mk 0 4),
       .sdop_game_tick (GamePtr.mk 8192) (2 ^ 64 - 1),
       .sdop_game_refresh_display (GamePtr.mk 8192) (2 ^ 64 - 1),
       .printf TICK_FORMAT (2 ^ 64 - 1)] ∧
    (2 : Int) ^ 63 ≤ (atLoop (fakeWorld 5 (-1)) 1).delta_nanos :=
  ⟨by decide,
   (regression_forwards_wrapped_delta (fakeWorld 5 (-1)) 0 1
     (by decide) (by decide) (by decide) (by decide) (by decide)).1,
   (regression_forwards_wrapped_delta (fakeWorld 5 (-1)) 0 1
     (by decide) (by decide) (by decide) (by decide) (by decide)).2 (by decide)⟩

/-! ## What one iteration does -/

/-- C2: on a clock whose `i`-th sample is `t0 + i * 1000000` ns as a
normalised pair, every iteration `i >= 1` passes exactly 1000000 to
`sdop_game_tick` and to `sdop_game_refresh_display` and prints exactly
1000000, whatever `t0` is (so also when `tv_sec` steps and `tv_nsec` wraps). -/
theorem fake_clock_delta_is_one_million (w : World) (t0 : Int)
    (hw : ∀ i, w.clock i = fakeClock t0 1000000 i) (i : Nat) (hi : 1 ≤ i) :
    iterationCalls w i =
      [.clock_gettime (fakeClock t0 1000000 i),
       .sdop_game_tick (w.sdop_game_blank (w.sdop_timestamp_new 2025 10 14 7 20 0)) 1000000,
       .sdop_game_refresh_display
          (w.sdop_game_blank (w.sdop_timestamp_new 2025 10 14 7 20 0)) 1000000,
       .printf TICK_FORMAT 1000000] ∧
    (atLoop w i).stdout = (atLoop w (i - 1)).stdout ++ "Tick advanced by 1000000 ns\n" := by
  obtain ⟨k, rfl⟩ : ∃ k, i = k + 1 := ⟨i - 1, by omega⟩
  have hdelta : delta_nanos (w.clock k) (w.clock (k + 1)) = 1000000 := by
    rw [delta_nanos_eq_emod, hw, hw, fakeClock_toNanos, fakeClock_toNanos]
    unfold U64_MOD
    push_cast
    omega
  constructor
  · rw [iterationCalls_succ]
    simp only [iterationOf, hdelta, gameOf, tsOf]
    rw [hw]
  · rw [Nat.add_sub_cancel, atLoop_stdout_succ, hdelta]
    rfl

/-- C2 at `t0 = 999500000`: in iteration 1 the sample goes from
`(0 s, 999500000 ns)` to `(1 s, 500000 ns)` and the delta is 1000000. -/
theorem fake_clock_delta_is_one_million_witness :
    (fakeWorld 999500000 1000000).clock 0 = Timespec.mk 0 999500000 ∧
    iterationCalls (fakeWorld 999500000 1000000) 1 =
      [.clock_gettime (Timespec.mk 1 500000),
       .sdop_game_tick (GamePtr.mk 8192) 1000000,
       .sdop_game_refresh_display (GamePtr.mk 8192) 1000000,
       .printf TICK_FORMAT 1000000] ∧
    (atLoop (fakeWorld 999500000 1000000) 1).stdout = "Tick advanced by 1000000 ns\n" :=
  ⟨by decide,
   (fake_clock_delta_is_one_million (fakeWorld 999500000 1000000) 999500000
     (fun _ => rfl) 1 (by decide)).1,
   (fake_clock_delta_is_one_million (fakeWorld 999500000 1000000) 999500000
     (fun _ => rfl) 1 (by decide)).2⟩

/-- C3: the calls of every loop iteration are, in this order, the clock read,
one `sdop_game_tick`, one `sdop_game_refresh_display` and the `printf`; the
tick and the refresh carry the same handle and the same delta, so the tick
occurs exactly once and strictly before the single refresh. -/
theorem tick_before_refresh_same_delta (w : World) (k : Nat) :
    (∃ g d, iterationCalls w (k + 1) =
      [.clock_gettime (w.clock (k + 1)), .sdop_game_tick g d,
       .sdop_game_refresh_display g d, .printf TICK_FORMAT d]) ∧
    (iterationCalls w (k + 1)).countP Call.isGameTick = 1 ∧
    (iterationCalls w (k + 1)).countP Call.isRefreshDisplay = 1 := by
  rw [iterationCalls_succ]
  exact ⟨⟨_, _, rfl⟩, rfl, rfl⟩

/-- C9: `last_time` holds sample 0 when the loop is first reached and sample
`k` after `k` iterations; iteration `k + 1` reads sample `k + 1` and computes
its delta from the pair (sample `k`, sample `k + 1`); and a statement changes
`last_time` only if it is the startup clock read or the assignment
`last_time = current_time`, which copies the whole sample. -/
theorem last_time_follows_samples (w : World) :
    (atLoop w 0).last_time = w.clock 0 ∧
    (∀ k, (atLoop w k).last_time = w.clock k ∧ (atLoop w k).clock_reads = k + 1) ∧
    (∀ k, (atLoop w (k + 1)).delta_nanos = delta_nanos (w.clock k) (w.clock (k + 1)) ∧
      iterationCalls w (k + 1) =
        [.clock_gettime (w.clock (k + 1)),
         .sdop_game_tick (w.sdop_game_blank (w.sdop_timestamp_new 2025 10 14 7 20 0))
            (delta_nanos (w.clock k) (w.clock (k + 1))),
         .sdop_game_refresh_display (w.sdop_game_blank (w.sdop_timestamp_new 2025 10 14 7 20 0))
            (delta_nanos (w.clock k) (w.clock (k + 1))),
         .printf TICK_FORMAT (delta_nanos (w.clock k) (w.clock (k + 1)))]) ∧
    (∀ m, (run w (m + 1)).last_time = (run w m).last_time ∨
      ((run w m).pc = .clock_init ∧
        (run w (m + 1)).last_time = w.clock (run w m).clock_reads) ∨
      ((run w m).pc = .assign_last ∧
        (run w (m + 1)).last_time = (run w m).current_time)) := by
  refine ⟨rfl, ?_, ?_, ?_⟩
  · intro k
    obtain ⟨_, _, _, hl, hc, _⟩ := atLoop_invariant w k
    exact ⟨hl, hc⟩
  · intro k
    exact ⟨atLoop_delta_succ w k, iterationCalls_succ w k⟩
  · intro m
    simp only [run]
    generalize run w m = s
    obtain ⟨pc, ts, game, lt, ct, dn, cr, tr, out, ex⟩ := s
    cases pc <;> simp [step]

/-! ## Standard output -/

/-- A decimal digit is not the newline character. -/
theorem digitChar_ne_newline (r : Nat) (h : r < 10) : Nat.digitChar r ≠ '\n' := by
  interval_cases r <;> decide

/-- The digit generator adds no newline. -/
theorem toDigitsCore_no_newline (fuel : Nat) : ∀ (n : Nat) (ds : List Char),
    (∀ c ∈ ds, c ≠ '\n') → ∀ c ∈ Nat.toDigitsCore 10 fuel n ds, c ≠ '\n' := by
  induction fuel with
  | zero => intro n ds h; simpa [Nat.toDigitsCore] using h
  | succ fuel ih =>
    intro n ds h
    have hd : ∀ c ∈ Nat.digitChar (n % 10) :: ds, c ≠ '\n' := by
      intro c hc
      rcases List.mem_cons.mp hc with rfl | hc
      · exact digitChar_ne_newline _ (Nat.mod_lt _ (by decide))
      · exact h c hc
    simp only [Nat.toDigitsCore]
    split
    · exact hd
    · exact ih _ _ hd

/-- The decimal rendering of a number contains no newline. -/
theorem lineCount_repr (n : Nat) : lineCount (Nat.repr n) = 0 := by
  unfold lineCount
  apply List.count_eq_zero.mpr
  intro hmem
  exact toDigitsCore_no_newline _ _ [] (by simp) _ hmem rfl

/-- Line counts add up under concatenation. -/
theorem lineCount_append (a b : String) : lineCount (a ++ b) = lineCount a + lineCount b := by
  unfold lineCount
  rw [String.data_append, List.count_append]

/-- The `printf` of the loop writes exactly one line. -/
theorem lineCount_printf_tick (d : Int) : lineCount (printf_tick d) = 1 := by
  unfold printf_tick
  rw [lineCount_append, lineCount_append, lineCount_repr]
  decide

/-- C7: nothing is written to standard output before the loop; iteration
`k + 1` appends exactly the text `Tick advanced by <d> ns` and a newline, where
`<d>` is the decimal rendering of the delta `d` (a non-negative value) that the
same iteration passed to `sdop_game_tick` and `sdop_game_refresh_display`; that
text holds one newline, its last character; and after `n` iterations standard
output holds exactly `n` lines. -/
theorem one_line_per_iteration (w : World) :
    (∀ m, m ≤ STARTUP_STEPS → (run w m).stdout = "") ∧
    (∀ k, ∃ g d,
      iterationCalls w (k + 1) =
        [.clock_gettime (w.clock (k + 1)), .sdop_game_tick g d,
         .sdop_game_refresh_display g d, .printf TICK_FORMAT d] ∧
      0 ≤ d ∧
      (atLoop w (k + 1)).stdout =
        (atLoop w k).stdout ++ ("Tick advanced by " ++ Nat.repr d.toNat ++ " ns\n") ∧
      lineCount (Nat.repr d.toNat) = 0 ∧
      lineCount ("Tick advanced by " ++ Nat.repr d.toNat ++ " ns\n") = 1) ∧
    (∀ n, lineCount (atLoop w n).stdout = n) := by
  refine ⟨?_, ?_, ?_⟩
  · intro m hm
    unfold STARTUP_STEPS at hm
    interval_cases m <;> rfl
  · intro k
    exact ⟨_, _, iterationCalls_succ w k, (delta_nanos_range _ _).1, atLoop_stdout_succ w k,
      lineCount_repr _, lineCount_printf_tick _⟩
  · intro n
    induction n with
    | zero => rfl
    | succ n ih => rw [atLoop_stdout_succ, lineCount_append, ih, lineCount_printf_tick]

/-! ## Prefixes of the call trace -/

/-- A finite prefix of the call trace is empty, or the first call, or the first
two, or the first three followed by loop-body calls only. -/
theorem prefix_cases (w : World) (m : Nat) (p : List Call) (hp : p <+: (run w m).trace) :
    p = [] ∨ p = [.sdop_timestamp_new 2025 10 14 7 20 0 (tsOf w)] ∨
    p = [.sdop_timestamp_new 2025 10 14 7 20 0 (tsOf w),
         .sdop_game_blank (tsOf w) (gameOf w)] ∨
    ∃ tail, p = .sdop_timestamp_new 2025 10 14 7 20 0 (tsOf w) ::
                .sdop_game_blank (tsOf w) (gameOf w) :: .sdop_timestamp_free (tsOf w) :: tail ∧
      ∀ c ∈ tail, LoopCall w c := by
  obtain ⟨rest, h, hall⟩ := prefix_shape w m p hp
  simp only [startupCalls, List.cons_append, List.nil_append] at h
  rcases p with _ | ⟨a, p⟩
  · exact Or.inl rfl
  rw [List.cons_prefix_cons] at h
  obtain ⟨rfl, h⟩ := h
  rcases p with _ | ⟨b, p⟩
  · exact Or.inr (Or.inl rfl)
  rw [List.cons_prefix_cons] at h
  obtain ⟨rfl, h⟩ := h
  rcases p with _ | ⟨c, p⟩
  · exact Or.inr (Or.inr (Or.inl rfl))
  rw [List.cons_prefix_cons] at h
  obtain ⟨rfl, h⟩ := h
  refine Or.inr (Or.inr (Or.inr ⟨p, rfl, ?_⟩))
  intro c hc
  rcases List.mem_cons.mp (h.subset hc) with rfl | hmem
  · exact Or.inl ⟨_, rfl⟩
  · exact hall c hmem

/-- What a loop-body call is not, and which handle it carries. -/
theorem LoopCall.facts {w : World} {c : Call} (h : LoopCall w c) :
    c.isGameBlank = false ∧ c.isGameFree = false ∧ c.isTimestampFree = false ∧
    c.timestampArg = none ∧
    ((c.isGameTick = true ∨ c.isRefreshDisplay = true) → c.gameArg = some (gameOf w)) := by
  rcases h with ⟨t, rfl⟩ | ⟨d, rfl⟩ | ⟨d, rfl⟩ | ⟨d, rfl⟩ <;>
    simp [Call.isGameBlank, Call.isGameFree, Call.isTimestampFree, Call.timestampArg,
      Call.isGameTick, Call.isRefreshDisplay, Call.gameArg]

/-- C6: the loop has no exit. After any number `n` of completed iterations the
run is at the loop test and the next statement enters the body (iteration
`n + 1`); no state of the run is at `sdop_game_free`, at `return 0` or past it,
and no exit status is ever set; and no finite prefix of the call trace holds a
call of `sdop_game_free`. All of it for every world, so for any clock. -/
theorem loop_never_exits (w : World) :
    (∀ n, (atLoop w n).pc = .loop_test ∧
      (run w (STARTUP_STEPS + ITERATION_STEPS * n + 1)).pc = .clock_current ∧
      (atLoop w (n + 1)).clock_reads = (atLoop w n).clock_reads + 1) ∧
    (∀ m, (run w m).pc ≠ .game_free ∧ (run w m).pc ≠ .return_zero ∧
      (run w m).pc ≠ .exited ∧ (run w m).exit_status = none) ∧
    (∀ m p, p <+: (run w m).trace → ∀ c ∈ p, c.isGameFree = false) := by
  refine ⟨?_, run_pc_in_loop w, ?_⟩
  · intro n
    obtain ⟨hpc, _, _, _, hc, _⟩ := atLoop_invariant w n
    obtain ⟨_, _, _, _, hc1, _⟩ := atLoop_invariant w (n + 1)
    refine ⟨hpc, ?_, by rw [hc, hc1]⟩
    show (step w (atLoop w n)).pc = .clock_current
    generalize atLoop w n = s at hpc
    obtain ⟨pc, ts, game, lt, ct, dn, cr, tr, out, ex⟩ := s
    simp only at hpc
    subst hpc
    simp [step]
  · intro m p hp c hc
    rcases prefix_cases w m p hp with rfl | rfl | rfl | ⟨tail, rfl, hall⟩
    · simp at hc
    · simp only [List.mem_singleton] at hc
      subst hc
      rfl
    · simp only [List.mem_cons, List.mem_singleton, List.not_mem_nil, or_false] at hc
      rcases hc with rfl | rfl <;> rfl
    · simp only [List.mem_cons] at hc
      rcases hc with rfl | rfl | rfl | hc
      · rfl
      · rfl
      · rfl
      · exact (hall c hc).facts.2.1

/-- C4, as the code has it: a finite prefix of the call trace with at least
two calls holds `sdop_game_blank` exactly once, as its second call; a shorter
prefix does not hold it yet; and in every finite prefix each `sdop_game_tick`
and `sdop_game_refresh_display` call comes after the `sdop_game_blank` call
and receives the handle that call returned. -/
theorem game_blank_once_before_use (w : World) (m : Nat) (p : List Call)
    (hp : p <+: (run w m).trace) :
    (2 ≤ p.length → p.countP Call.isGameBlank = 1 ∧
      p[1]? = some (.sdop_game_blank (w.sdop_timestamp_new 2025 10 14 7 20 0)
                (w.sdop_game_blank (w.sdop_timestamp_new 2025 10 14 7 20 0)))) ∧
    (p.length < 2 → p.countP Call.isGameBlank = 0) ∧
    (∀ (i : Nat) (c : Call), p[i]? = some c → (c.isGameTick = true ∨ c.isRefreshDisplay = true) →
      ∃ j ts g, j < i ∧ p[j]? = some (.sdop_game_blank ts g) ∧ c.gameArg = some g) := by
  rcases prefix_cases w m p hp with rfl | rfl | rfl | ⟨tail, rfl, hall⟩
  · simp
  · refine ⟨by simp, by simp [Call.isGameBlank], ?_⟩
    intro i c hi hc
    rcases i with _ | i
    · simp at hi; subst hi; simp [Call.isGameTick, Call.isRefreshDisplay] at hc
    · simp at hi
  · refine ⟨fun _ => ⟨by simp [Call.isGameBlank], by simp [tsOf, gameOf]⟩, by simp, ?_⟩
    intro i c hi hc
    rcases i with _ | _ | i
    · simp at hi; subst hi; simp [Call.isGameTick, Call.isRefreshDisplay] at hc
    · simp at hi; subst hi; simp [Call.isGameTick, Call.isRefreshDisplay] at hc
    · simp at hi
  · have htail : tail.countP Call.isGameBlank = 0 := by
      rw [List.countP_eq_zero]
      intro c hc
      simp [(hall c hc).facts.1]
    refine ⟨fun _ => ⟨by simp [List.countP_cons, Call.isGameBlank, htail],
      by simp [tsOf, gameOf]⟩, by simp, ?_⟩
    intro i c hi hc
    rcases i with _ | _ | _ | i
    · simp at hi; subst hi; simp [Call.isGameTick, Call.isRefreshDisplay] at hc
    · simp at hi; subst hi; simp [Call.isGameTick, Call.isRefreshDisplay] at hc
    · simp at hi; subst hi; simp [Call.isGameTick, Call.isRefreshDisplay] at hc
    · simp only [List.getElem?_cons_succ] at hi
      have hmem : c ∈ tail := List.getElem?_mem hi
      exact ⟨1, tsOf w, gameOf w, by omega, by simp, (hall c hmem).facts.2.2.2.2 hc⟩

/-- C4 as written fails on the prefix made of the first call alone: it holds
no `sdop_game_blank` call. -/
theorem game_blank_absent_from_first_call :
    (run (fakeWorld 0 1000000) 1).trace =
      [.sdop_timestamp_new 2025 10 14 7 20 0 (TimestampPtr.mk 4096)] ∧
    (run (fakeWorld 0 1000000) 1).trace <+: (run (fakeWorld 0 1000000) 1).trace ∧
    (run (fakeWorld 0 1000000) 1).trace.countP Call.isGameBlank ≠ 1 :=
  ⟨by decide, List.prefix_refl _, by decide⟩

/-- C4 on the trace after startup and one iteration (11 statements, 8 calls):
one `sdop_game_blank`, in second place. -/
theorem game_blank_once_before_use_witness :
    (run (fakeWorld 0 1000000) 11).trace.length = 8 ∧
    (run (fakeWorld 0 1000000) 11).trace.countP Call.isGameBlank = 1 ∧
    (run (fakeWorld 0 1000000) 11).trace[1]? =
      some (.sdop_game_blank (TimestampPtr.mk 4096) (GamePtr.mk 8192)) :=
  ⟨by decide,
   ((game_blank_once_before_use (fakeWorld 0 1000000) 11 _ (List.prefix_refl _)).1
      (by decide)).1,
   ((game_blank_once_before_use (fakeWorld 0 1000000) 11 _ (List.prefix_refl _)).1
      (by decide)).2⟩

/-- C5: in a finite prefix of the call trace that holds at least the first
three calls (so in every prefix that extends past startup) the first call
makes the timestamp, the second is `sdop_game_blank` on it, the third releases
it, `sdop_timestamp_free` occurs exactly once, and no later call takes a
timestamp argument. -/
theorem timestamp_freed_once_after_blank (w : World) (m : Nat) (p : List Call)
    (hp : p <+: (run w m).trace) (hlen : 3 ≤ p.length) :
    p[0]? = some (.sdop_timestamp_new 2025 10 14 7 20 0
              (w.sdop_timestamp_new 2025 10 14 7 20 0)) ∧
    p[1]? = some (.sdop_game_blank (w.sdop_timestamp_new 2025 10 14 7 20 0)
              (w.sdop_game_blank (w.sdop_timestamp_new 2025 10 14 7 20 0))) ∧
    p[2]? = some (.sdop_timestamp_free (w.sdop_timestamp_new 2025 10 14 7 20 0)) ∧
    p.countP Call.isTimestampFree = 1 ∧
    (∀ (i : Nat) (c : Call), 2 < i → p[i]? = some c → c.timestampArg = none) := by
  rcases prefix_cases w m p hp with rfl | rfl | rfl | ⟨tail, rfl, hall⟩
  · simp at hlen
  · simp at hlen
  · simp at hlen
  · have htail : tail.countP Call.isTimestampFree = 0 := by
      rw [List.countP_eq_zero]
      intro c hc
      simp [(hall c hc).facts.2.2.1]
    refine ⟨by simp [tsOf], by simp [tsOf, gameOf], by simp [tsOf],
      by simp [List.countP_cons, Call.isTimestampFree, htail], ?_⟩
    intro i c hi hc
    obtain ⟨j, rfl⟩ : ∃ j, i = j + 3 := ⟨i - 3, by omega⟩
    simp only [List.getElem?_cons_succ] at hc
    exact (hall c (List.getElem?_mem hc)).facts.2.2.2.1

/-- C5 on the trace after startup and one iteration: the release is the third
call and the only one. -/
theorem timestamp_freed_once_after_blank_witness :
    3 ≤ (run (fakeWorld 0 1000000) 11).trace.length ∧
    (run (fakeWorld 0 1000000) 11).trace[2]? =
      some (.sdop_timestamp_free (TimestampPtr.mk 4096)) ∧
    (run (fakeWorld 0 1000000) 11).trace.countP Call.isTimestampFree = 1 :=
  ⟨by decide,
   (timestamp_freed_once_after_blank (fakeWorld 0 1000000) 11 _ (List.prefix_refl _)
      (by decide)).2.2.1,
   (timestamp_freed_once_after_blank (fakeWorld 0 1000000) 11 _ (List.prefix_refl _)
      (by decide)).2.2.2.1⟩

end Sdop
